import Mathlib

/-!
Shallow embedding of the alignment-matrix-control utilities and component
from `alignment-matrix-control-stories-index-story.c28a72b7.iframe.bundle.js`
(originating in `packages/components/src/alignment-matrix-control/utils.tsx`
and `index.tsx`).

JavaScript strings that may be `undefined` are modelled as `Option String`
(`none` = `undefined`).  The JavaScript method `String.prototype.replace(pat, repl)`
with a string pattern replaces only the FIRST occurrence of `pat` (or inserts
`repl` at the front when `pat` is empty); `replaceFirst` below reproduces
exactly that.
-/

namespace AlignmentMatrix

/-- First-occurrence string replacement on character lists, mirroring
JavaScript `s.replace(pat, repl)` with a plain-string pattern: scan for the
first position where `pat` occurs; if found, splice in `repl`; otherwise
return the input unchanged.  An empty `pat` matches at position 0. -/
def replaceFirstList : List Char → List Char → List Char → List Char
  | [], pat, repl => if pat = [] then repl else []
  | c :: rest, pat, repl =>
    if pat.isPrefixOf (c :: rest) then repl ++ (c :: rest).drop pat.length
    else c :: replaceFirstList rest pat repl

/-- String wrapper for `replaceFirstList`: JavaScript `s.replace(pat, repl)`
(first occurrence only). -/
def replaceFirst (s pat repl : String) : String :=
  ⟨replaceFirstList s.data pat.data repl.data⟩

/-- Source: `GRID=[["top left","top center","top right"],["center left",
"center center","center right"],["bottom left","bottom center","bottom right"]]`. -/
def GRID : List (List String) :=
  [["top left", "top center", "top right"],
   ["center left", "center center", "center right"],
   ["bottom left", "bottom center", "bottom right"]]

/-- Source: `ALIGNMENTS=GRID.flat()`. -/
def ALIGNMENTS : List String := GRID.flatten

/-- Source: `function normalize(value){const normalized="center"===value?
"center center":value,transformed=normalized?.replace("-"," ");return
ALIGNMENTS.includes(transformed)?transformed:void 0}`.
`value` may be `undefined` (`none`); `includes(undefined)` is `false`. -/
def normalize (value : Option String) : Option String :=
  let normalized : Option String :=
    if value = some "center" then some "center center" else value
  let transformed : Option String :=
    normalized.map (fun s => replaceFirst s "-" " ")
  match transformed with
  | some t => if ALIGNMENTS.contains t then some t else none
  | none => none

/-- Source: `function getItemId(prefixId,value){const normalized=
normalize(value);if(!normalized)return;return
`$\x7bprefixId\x7d-$\x7bnormalized.replace(" ","-")\x7d`}`.
`!normalized` is true for `undefined` and for the empty string. -/
def getItemId (pid : String) (value : Option String) : Option String :=
  match normalize value with
  | none => none
  | some n => if n = "" then none else some ((pid ++ "-") ++ replaceFirst n " " "-")

/-- Source: `function getItemValue(prefixId,id){const value=
id?.replace(prefixId+"-","");return normalize(value)}`.
Note the JavaScript `replace` removes the FIRST occurrence of
`prefixId + "-"` anywhere in `id`, not only a leading one. -/
def getItemValue (pid : String) (id : Option String) : Option String :=
  normalize (id.map (fun s => replaceFirst s (pid ++ "-") ""))

/-- JavaScript `Array.prototype.indexOf`: the index of the first element
equal to `n`, or `-1` when absent. -/
def jsIndexOf (l : List String) (n : String) : Int :=
  match l.findIdx? (fun x => x == n) with
  | some i => (i : Int)
  | none => -1

/-- Source: `function getAlignmentIndex(alignment="center"){const normalized=
normalize(alignment);if(!normalized)return;const index=
ALIGNMENTS.indexOf(normalized);return index>-1?index:void 0}`.
The argument `none` models calling with the argument omitted (or
`undefined`), which triggers the `"center"` default parameter.  JavaScript
`indexOf` yields `-1` when the element is absent. -/
def getAlignmentIndex (alignment : Option String) : Option Int :=
  match normalize (some (alignment.getD "center")) with
  | none => none
  | some n =>
    let index : Int := jsIndexOf ALIGNMENTS n
    if index > -1 then some index else none

/-- Source: in `AlignmentMatrixControl`, the store prop
`activeId:getItemId(baseId,value)` — the controlled active-id prop passed to
the composite store (`undefined` when `value` is absent or invalid). -/
def amcActiveIdProp (baseId : String) (value : Option String) : Option String :=
  getItemId baseId value

/-- Source: in `AlignmentMatrixControl`, the store prop
`defaultActiveId:getItemId(baseId,defaultValue)` together with the default
parameter `defaultValue="center center"`; `none` models an omitted
`defaultValue` argument, which JavaScript fills with `"center center"`. -/
def amcDefaultActiveId (baseId : String) (defaultValue : Option String) : Option String :=
  getItemId baseId (some (defaultValue.getD "center center"))

/-- Source: the `setActiveId` handler in `AlignmentMatrixControl`:
`setActiveId:nextActiveId=>{const nextValue=getItemValue(baseId,nextActiveId);
nextValue&&onChange?.(nextValue)}`.  The result is the value the handler
invokes `onChange` with (`none` = `onChange` is not invoked); the JavaScript
truthiness guard `nextValue &&` skips the call for `undefined` and for the
empty string. -/
def setActiveIdEmission (baseId : String) (nextActiveId : Option String) : Option String :=
  match getItemValue baseId nextActiveId with
  | some v => if v = "" then none else some v
  | none => none

/-- Modelled from the spec: the initial active id of the composite store.  The
store implementation (the external `useCompositeStore` capability) is not
under `src/`; per the selection state machine of the spec, a supplied (controlled)
`activeId` prop takes precedence, otherwise the `defaultActiveId` prop is
used, otherwise the active id is unset. -/
def storeInitActiveId (activeIdProp defaultActiveIdProp : Option String) : Option String :=
  match activeIdProp with
  | some i => some i
  | none => defaultActiveIdProp

/-- Initial active id of `AlignmentMatrixControl` as a function of its
`value` and `defaultValue` props (`none` = prop omitted): the src-level store
props combined with the spec-modelled store initialization. -/
def amcInitActiveId (baseId : String) (value defaultValue : Option String) : Option String :=
  storeInitActiveId (amcActiveIdProp baseId value) (amcDefaultActiveId baseId defaultValue)

/-- Controlled mode holds exactly when the store receives a defined
`activeId` prop, i.e. when `getItemId(baseId, value)` is defined. -/
def amcControlled (baseId : String) (value : Option String) : Bool :=
  (amcActiveIdProp baseId value).isSome

/-- Modelled from the spec: what a read of the active identifier of the store
returns, given the props of the component and the internal store field.  The
store implementation is not under `src/`; per the spec, in controlled mode
the active id is a stateless projection of the controlled prop, in
uncontrolled mode it is the internal field. -/
def amcReadActiveId (baseId : String) (value : Option String)
    (internal : Option String) : Option String :=
  match amcActiveIdProp baseId value with
  | some i => some i
  | none => internal

/-- Modelled from the spec: the activation transition ("user activates cell
X") of the selection state machine.  The store implementation is not under
`src/`; per the spec, activating a cell runs the `setActiveId`
handler (first component of the result: the `onChange` emission, from src)
and updates the internal active-id field to the activated id only in
uncontrolled mode (second component: the new internal field). -/
def amcActivate (baseId : String) (value : Option String)
    (internal : Option String) (cellId : String) : Option String × Option String :=
  (setActiveIdEmission baseId (some cellId),
   if amcControlled baseId value then internal else some cellId)

/-- Source: in the `GRID.map` render of `AlignmentMatrixControl`,
`const cellId=getItemId(baseId,cell),isActive=cellId===activeId`.  For the
rendered cells `cellId` is always defined; `Option` equality makes JavaScript
`undefined===undefined` come out `true` like `===` does. -/
def cellIsActive (baseId : String) (cell : String) (activeId : Option String) : Bool :=
  getItemId baseId (some cell) == activeId

/-- Follows the words of claim C3 (not the source): strip the LEADING
`pid ++ "-"` from the id; if the leading occurrence is absent the remainder
is the full string; then normalize the remainder.  Compared against the
source function `getItemValue`, which removes the first occurrence anywhere. -/
def getItemValueLeadingSpec (pid : String) (id : Option String) : Option String :=
  match id with
  | none => none
  | some s =>
    let pre := (pid ++ "-").data
    normalize (some ⟨if pre.isPrefixOf s.data then s.data.drop pre.length else s.data⟩)

/-- Follows the wording of the spec for `normalize` (claim C2): map the shorthand
`"center"` to `"center center"`, replace a single hyphen with a space, check
membership in the fixed 9-value set, return the canonical space-separated
form if valid and `undefined` otherwise (empty input, unknown tokens, case
mismatches; no case normalization). -/
def normalizeSpec (value : Option String) : Option String :=
  match value with
  | none => none
  | some v =>
    let w := if v = "center" then "center center" else v
    let t := replaceFirst w "-" " "
    if ALIGNMENTS.contains t then some t else none

/-! Helper lemmas. -/

theorem isPrefixOf_append_self (l t : List Char) : l.isPrefixOf (l ++ t) = true := by
  induction l with
  | nil => simp [List.isPrefixOf]
  | cons c cs ih => simp [List.isPrefixOf, ih]

theorem replaceFirstList_pre (pat t repl : List Char) :
    replaceFirstList (pat ++ t) pat repl = repl ++ t := by
  cases pat with
  | nil =>
    cases t with
    | nil => simp [replaceFirstList]
    | cons c rest => simp [replaceFirstList, List.isPrefixOf]
  | cons p ps =>
    have hpre : (p :: ps).isPrefixOf (p :: (ps ++ t)) = true :=
      isPrefixOf_append_self (p :: ps) t
    show replaceFirstList (p :: (ps ++ t)) (p :: ps) repl = repl ++ t
    simp [replaceFirstList, hpre, List.drop_left]

theorem replaceFirst_append (a t r : String) : replaceFirst (a ++ t) a r = r ++ t := by
  show String.mk (replaceFirstList (a ++ t).data a.data r.data) = r ++ t
  have hdata : (a ++ t).data = a.data ++ t.data := rfl
  rw [hdata, replaceFirstList_pre]
  rfl

theorem string_append_left_cancel {a x y : String} (h : a ++ x = a ++ y) : x = y := by
  have hd : a.data ++ x.data = a.data ++ y.data := congrArg String.data h
  have hxy : x.data = y.data := List.append_cancel_left hd
  cases x; cases y
  exact congrArg String.mk hxy

theorem contains_mem {t : String} (h : ALIGNMENTS.contains t = true) : t ∈ ALIGNMENTS := by
  simpa [List.contains] using h

theorem normalize_eq_spec_fun (v : Option String) : normalize v = normalizeSpec v := by
  cases v with
  | none => rfl
  | some s => by_cases hs : s = "center" <;> simp [normalize, normalizeSpec, hs]

theorem normalizeSpec_mem (v : Option String) (t : String) (h : normalizeSpec v = some t) :
    t ∈ ALIGNMENTS := by
  cases v with
  | none => exact absurd h (by simp [normalizeSpec])
  | some s =>
    simp only [normalizeSpec] at h
    split at h
    all_goals split at h
    all_goals
      first
        | (obtain rfl := Option.some.inj h; exact contains_mem (by assumption))
        | exact absurd h (by simp)

theorem normalize_mem (v : Option String) (t : String) (h : normalize v = some t) :
    t ∈ ALIGNMENTS := by
  rw [normalize_eq_spec_fun] at h
  exact normalizeSpec_mem v t h

theorem alignments_ne_empty : ∀ n ∈ ALIGNMENTS, n ≠ "" := by decide

theorem alignments_nodup : ALIGNMENTS.Nodup := by decide

theorem normalize_fixed : ∀ v ∈ ALIGNMENTS, normalize (some v) = some v := by decide

theorem normalize_hyph_all : ∀ n ∈ ALIGNMENTS,
    normalize (some (replaceFirst n " " "-")) = some n := by decide

theorem hyph_inj : ∀ x ∈ ALIGNMENTS, ∀ y ∈ ALIGNMENTS,
    replaceFirst x " " "-" = replaceFirst y " " "-" → x = y := by decide

theorem jsIndexOf_alignments : ∀ n ∈ ALIGNMENTS,
    0 ≤ jsIndexOf ALIGNMENTS n ∧ jsIndexOf ALIGNMENTS n ≤ 8 ∧
    ALIGNMENTS[(jsIndexOf ALIGNMENTS n).toNat]? = some n := by decide

theorem getItemId_mem_eq (b v : String) (hv : v ∈ ALIGNMENTS) :
    getItemId b (some v) = some ((b ++ "-") ++ replaceFirst v " " "-") := by
  have h1 := normalize_fixed v hv
  have h2 := alignments_ne_empty v hv
  simp [getItemId, h1, h2]

theorem nodup_countP_le_one {α : Type} [BEq α] [LawfulBEq α] {l : List α} (h : l.Nodup)
    (a : α) : l.countP (fun x => x == a) ≤ 1 := by
  induction l with
  | nil => simp
  | cons x xs ih =>
    rw [List.countP_cons]
    rcases List.nodup_cons.mp h with ⟨hx, hxs⟩
    by_cases hpa : (x == a) = true
    · obtain rfl : x = a := eq_of_beq hpa
      have h0 : xs.countP (fun y => y == x) = 0 :=
        List.countP_eq_zero.mpr (fun b hb hb2 => hx (eq_of_beq hb2 ▸ hb))
      simp [hpa, h0]
    · simp only [hpa, if_false]
      simpa using ih hxs

/-! Claim theorems. -/

/-- C1: round-trip law — for every valid alignment value `v` (one on which
`normalize` is defined) and every non-empty `pid`,
`getItemValue pid (getItemId pid v)` equals `normalize v`. -/
theorem claim1_roundtrip (p v : String) (_hp : p ≠ "")
    (hv : (normalize (some v)).isSome = true) :
    getItemValue p (getItemId p (some v)) = normalize (some v) := by
  obtain ⟨n, hn⟩ := Option.isSome_iff_exists.mp hv
  have hmem : n ∈ ALIGNMENTS := normalize_mem _ _ hn
  have hne : n ≠ "" := alignments_ne_empty n hmem
  have hid : getItemId p (some v) = some ((p ++ "-") ++ replaceFirst n " " "-") := by
    simp [getItemId, hn, hne]
  rw [hid]
  show normalize (some (replaceFirst ((p ++ "-") ++ replaceFirst n " " "-") (p ++ "-") "")) =
    normalize (some v)
  rw [replaceFirst_append]
  have hnil : ("" : String) ++ replaceFirst n " " "-" = replaceFirst n " " "-" := rfl
  rw [hnil, normalize_hyph_all n hmem, hn]

/-- C1 witness: the round trip at the concrete pair `("abc", "top left")`. -/
theorem claim1_roundtrip_witness :
    ("abc" : String) ≠ "" ∧ (normalize (some "top left")).isSome = true ∧
    getItemValue "abc" (getItemId "abc" (some "top left")) = normalize (some "top left") :=
  ⟨by decide, by decide, claim1_roundtrip "abc" "top left" (by decide) (by decide)⟩

/-- C2: the `normalize` contract — it agrees everywhere with the
spec-described procedure (`"center"` shorthand, single hyphen to space,
membership in the fixed 9-value set), and it returns `none` on the empty
string, on unknown tokens and on case mismatches, with no case
normalization and no exception (the function is total). -/
theorem claim2_normalize_contract :
    (∀ v, normalize v = normalizeSpec v) ∧
    normalize (some "center") = some "center center" ∧
    normalize (some "bottom-left") = some "bottom left" ∧
    normalize (some "") = none ∧
    normalize (some "diagonal") = none ∧
    normalize (some "Center") = none ∧
    normalize (some "TOP LEFT") = none ∧
    normalize none = none :=
  ⟨normalize_eq_spec_fun, by decide, by decide, by decide, by decide, by decide,
   by decide, rfl⟩

/-- C3 counterexample: `getItemValue` does NOT strip only a leading
`pid ++ "-"` — JavaScript `replace` removes the first occurrence anywhere.
For the id `"top-left-left"` with `pid = "left"` the source returns
`some "top left"`, while the leading-strip reading of the claim returns `none`. -/
theorem claim3_counterexample :
    getItemValue "left" (some "top-left-left") = some "top left" ∧
    getItemValueLeadingSpec "left" (some "top-left-left") = none ∧
    getItemValue "left" (some "top-left-left") ≠
      getItemValueLeadingSpec "left" (some "top-left-left") := by decide

/-- C3 amended: `getItemValue` removes the FIRST occurrence of
`pid ++ "-"` anywhere in the id (when absent, the remainder is the full
string — `replaceFirst` leaves such a string unchanged), normalizes the
remainder, and returns a value only if it is one of the 9 canonical values;
an absent id yields `none` rather than an error. -/
theorem claim3_amended (pid : String) :
    getItemValue pid none = none ∧
    (∀ s, getItemValue pid (some s) =
      normalize (some (replaceFirst s (pid ++ "-") ""))) ∧
    (∀ id v, getItemValue pid id = some v → v ∈ ALIGNMENTS) := by
  refine ⟨rfl, fun s => rfl, fun id v h => ?_⟩
  cases id with
  | none => exact absurd h (by simp [getItemValue, normalize])
  | some s => exact normalize_mem _ _ h

/-- C3 witness: decoding the well-formed id `"abc-top-left"` yields the
canonical value `"top left"`. -/
theorem claim3_amended_witness :
    getItemValue "abc" (some "abc-top-left") = some "top left" ∧
    "top left" ∈ ALIGNMENTS :=
  ⟨by decide, (claim3_amended "abc").2.2 (some "abc-top-left") "top left" (by decide)⟩

/-- C4: `getAlignmentIndex` — the omitted argument behaves as `"center"`,
both give index 4; `"invalid"` gives `none`; every input on which
`normalize` fails gives `none` (never `-1`, the result is an `Option`); and
every returned index lies in `[0, 8]` and points, in the flattened
row-major grid, at the normalized input. -/
theorem claim4_alignment_index :
    getAlignmentIndex none = getAlignmentIndex (some "center") ∧
    getAlignmentIndex (some "center") = some 4 ∧
    getAlignmentIndex (some "invalid") = none ∧
    (∀ a : Option String,
      normalize (some (a.getD "center")) = none → getAlignmentIndex a = none) ∧
    (∀ (a : Option String) (i : Int), getAlignmentIndex a = some i →
      0 ≤ i ∧ i ≤ 8 ∧ ALIGNMENTS[i.toNat]? = normalize (some (a.getD "center"))) := by
  refine ⟨by decide, by decide, by decide, fun a h => ?_, fun a i h => ?_⟩
  · simp [getAlignmentIndex, h]
  · rw [getAlignmentIndex] at h
    cases hn : normalize (some (a.getD "center")) with
    | none => rw [hn] at h; exact absurd h (by simp)
    | some n =>
      rw [hn] at h
      have hmem : n ∈ ALIGNMENTS := normalize_mem _ _ hn
      obtain ⟨h0, h8, hget⟩ := jsIndexOf_alignments n hmem
      simp only at h
      rw [if_pos (by omega)] at h
      obtain rfl := Option.some.inj h
      exact ⟨h0, h8, hget⟩

/-- C4 witness: the theorem applied at `"top right"`, which sits at
row-major index 2. -/
theorem claim4_alignment_index_witness :
    getAlignmentIndex (some "top right") = some 2 ∧
    (0 ≤ (2 : Int) ∧ (2 : Int) ≤ 8 ∧
      ALIGNMENTS[((2 : Int)).toNat]? = normalize (some "top right")) :=
  ⟨by decide, claim4_alignment_index.2.2.2.2 (some "top right") 2 (by decide)⟩

/-- C5: the `setActiveId` handler invokes `onChange` with the decoded
canonical value exactly when `getItemValue` on the activated id is defined;
a cell whose id decodes to `undefined` is silently ignored (no emission,
and the handler is total, so nothing is thrown). -/
theorem claim5_onchange_guard (b : String) (value internal : Option String) (c : String) :
    (amcActivate b value internal c).1 = getItemValue b (some c) ∧
    (getItemValue b (some c) = none → (amcActivate b value internal c).1 = none) := by
  have hmain : setActiveIdEmission b (some c) = getItemValue b (some c) := by
    unfold setActiveIdEmission
    cases h : getItemValue b (some c) with
    | none => rfl
    | some v =>
      have hmem : v ∈ ALIGNMENTS := normalize_mem _ _ h
      have hne : v ≠ "" := alignments_ne_empty v hmem
      simp [hne]
  exact ⟨hmain, fun h => by rw [show (amcActivate b value internal c).1 =
    setActiveIdEmission b (some c) from rfl, hmain, h]⟩

/-- C5 witness: activating the malformed id `"junk"` emits nothing. -/
theorem claim5_onchange_guard_witness :
    getItemValue "b" (some "junk") = none ∧
    (amcActivate "b" none none "junk").1 = none :=
  ⟨by decide, (claim5_onchange_guard "b" none none "junk").2 (by decide)⟩

/-- C6: in uncontrolled mode activating cell `c` makes subsequent reads of
the active identifier return `c`; in controlled mode activation leaves the
read active identifier unchanged (the caller must re-supply the value). -/
theorem claim6_controlled_uncontrolled (b : String) (value internal : Option String)
    (c : String) :
    (amcControlled b value = false →
      amcReadActiveId b value (amcActivate b value internal c).2 = some c) ∧
    (amcControlled b value = true →
      amcReadActiveId b value (amcActivate b value internal c).2 =
        amcReadActiveId b value internal) := by
  constructor
  · intro h
    have hnone : amcActiveIdProp b value = none :=
      Option.not_isSome_iff_eq_none.mp (by simp [amcControlled] at h; simp [h])
    simp [amcActivate, amcControlled, amcReadActiveId, hnone]
  · intro h
    obtain ⟨i, hi⟩ := Option.isSome_iff_exists.mp (by simpa [amcControlled] using h)
    simp [amcActivate, amcControlled, amcReadActiveId, hi, h]

/-- C6 witness: with no controlled value, activating the id of the centre-left cell
makes the active identifier read as that id. -/
theorem claim6_controlled_uncontrolled_witness :
    amcControlled "b" none = false ∧
    amcReadActiveId "b" none (amcActivate "b" none none "b-center-left").2 =
      some "b-center-left" :=
  ⟨by decide, (claim6_controlled_uncontrolled "b" none none "b-center-left").1 (by decide)⟩

/-- C7 counterexample: with neither a controlled value nor a default value
supplied the active id is NOT unset — the `defaultValue` parameter default
`"center center"` kicks in and the initial active id is the id of the centre
cell. -/
theorem claim7_counterexample :
    amcInitActiveId "b" none none = some "b-center-center" ∧
    amcInitActiveId "b" none none ≠ none := by decide

/-- C7 amended: if a controlled value is supplied and
`getItemId pid value` is defined, the initial active id equals it;
otherwise (no controlled value, or an invalid one, which makes the
controlled `activeId` store prop `undefined`) the initial active id equals
`getItemId pid defaultValue`, with `defaultValue` defaulting to
`"center center"` when omitted. -/
theorem claim7_init_amended (b : String) (value defaultValue : Option String) :
    (∀ v, value = some v → (getItemId b (some v)).isSome = true →
      amcInitActiveId b value defaultValue = getItemId b (some v)) ∧
    (amcActiveIdProp b value = none →
      amcInitActiveId b value defaultValue =
        getItemId b (some (defaultValue.getD "center center"))) := by
  constructor
  · intro v hv hs
    subst hv
    obtain ⟨i, hi⟩ := Option.isSome_iff_exists.mp hs
    simp [amcInitActiveId, storeInitActiveId, amcActiveIdProp, hi]
  · intro h
    simp [amcInitActiveId, storeInitActiveId, amcDefaultActiveId, h]

/-- C7 witness: a supplied valid controlled value `"top left"` fixes the
initial active id to its item id. -/
theorem claim7_init_amended_witness :
    (getItemId "b" (some "top left")).isSome = true ∧
    amcInitActiveId "b" (some "top left") none = getItemId "b" (some "top left") :=
  ⟨by decide,
   (claim7_init_amended "b" (some "top left") none).1 "top left" rfl (by decide)⟩

/-- C8: every one of the 9 canonical space-separated alignment values is a
fixed point of `normalize`. -/
theorem claim8_fixed_points : ∀ v ∈ ALIGNMENTS, normalize (some v) = some v := by decide

/-- C8 witness: the fixed-point property at `"bottom right"`. -/
theorem claim8_fixed_points_witness :
    "bottom right" ∈ ALIGNMENTS ∧ normalize (some "bottom right") = some "bottom right" :=
  ⟨by decide, claim8_fixed_points "bottom right" (by decide)⟩

/-- C9: implicit default — with neither a controlled nor a default value the
active id is not unset: `defaultValue` defaults to `"center center"` and the
initial active id is `getItemId baseId "center center"`, the centre cell. -/
theorem claim9_default_center (b : String) :
    amcInitActiveId b none none = getItemId b (some "center center") ∧
    amcInitActiveId b none none = some ((b ++ "-") ++ "center-center") ∧
    (amcInitActiveId b none none).isSome = true :=
  ⟨rfl, rfl, rfl⟩

/-- C10: for any fixed `pid`, `getItemId` is injective on the 9 canonical
values, and consequently for any value of the stored active id at most one
of the 9 rendered cells is active. -/
theorem claim10_injective_unique_active (b : String) :
    (∀ v1 ∈ ALIGNMENTS, ∀ v2 ∈ ALIGNMENTS,
      getItemId b (some v1) = getItemId b (some v2) → v1 = v2) ∧
    (∀ activeId : Option String,
      (ALIGNMENTS.filter (fun cell => cellIsActive b cell activeId)).length ≤ 1) := by
  have hinj : ∀ v1 ∈ ALIGNMENTS, ∀ v2 ∈ ALIGNMENTS,
      getItemId b (some v1) = getItemId b (some v2) → v1 = v2 := by
    intro v1 h1 v2 h2 heq
    rw [getItemId_mem_eq b v1 h1, getItemId_mem_eq b v2 h2] at heq
    exact hyph_inj v1 h1 v2 h2 (string_append_left_cancel (Option.some.inj heq))
  refine ⟨hinj, fun activeId => ?_⟩
  have hmap : (ALIGNMENTS.map (fun v => getItemId b (some v))).Nodup :=
    alignments_nodup.map_on hinj
  have e1 : (ALIGNMENTS.filter (fun cell => cellIsActive b cell activeId)).length
      = ALIGNMENTS.countP (fun cell => cellIsActive b cell activeId) :=
    (List.countP_eq_length_filter _ _).symm
  have e2 : ALIGNMENTS.countP (fun cell => cellIsActive b cell activeId)
      = (ALIGNMENTS.map (fun v => getItemId b (some v))).countP
          (fun x => x == activeId) := by
    rw [List.countP_map]
    rfl
  rw [e1, e2]
  exact nodup_countP_le_one hmap activeId

/-- C10 witness: injectivity applied at a concrete pair of canonical values
and the at-most-one-active bound at a concrete active id. -/
theorem claim10_injective_unique_active_witness :
    ("top left" ∈ ALIGNMENTS ∧ ("top left" : String) = "top left") ∧
    (ALIGNMENTS.filter (fun cell => cellIsActive "b" cell (some "b-top-left"))).length ≤ 1 :=
  ⟨⟨by decide,
    (claim10_injective_unique_active "b").1 "top left" (by decide) "top left"
      (by decide) (by decide)⟩,
   (claim10_injective_unique_active "b").2 (some "b-top-left")⟩

end AlignmentMatrix
